import Mathlib

/-!
Verification of the NodeQuizPro exam/quiz platform's submission-and-scoring
flow, formalised as a shallow embedding of the relevant source files:

* `src/shared/schema.ts` — the row types (users, exams, questions,
  submissions, answers);
* `src/server/storage.ts` — the `DatabaseStorage` operations used by the
  routes, modelled as pure functions over an explicit `Store` value;
* `src/server/routes.ts` — the `POST /api/exams/:examId/submit` handler,
  the `GET /api/users/students` handler and the
  `GET /api/exams/:examId/submissions` handler;
* `src/unnamed/part_002` — the `ExamTaking` countdown-timer effects.

Machine integers are modelled as `Int`/`Nat` (JS numbers in the source stay
well inside the exact-integer range here), timestamps as integer epoch
milliseconds, and nullable columns as `Option`.
-/

namespace NodeQuizPro

/-! ## Data model (src/shared/schema.ts) -/

/-- Row of the `users` table.  The nullable columns (`student_id`, `email`,
`class`, `created_at`) are `Option`s.  `class` is a Lean keyword, so the
field is named `class_`. -/
structure User where
  id : Nat
  studentId : Option String
  fullName : String
  username : String
  password : String
  email : Option String
  role : String
  class_ : Option String
  createdAt : Option Int
deriving DecidableEq, Repr

/-- Row of the `exams` table. -/
structure Exam where
  id : Nat
  title : String
  subject : String
  class_ : String
  topic : Option String
  startTime : Int
  endTime : Int
  duration : Int
  status : String
  createdById : Nat
  createdAt : Option Int
deriving DecidableEq, Repr

/-- The four-option map stored in the `options` json column
(`{A: ..., B: ..., C: ..., D: ...}`). -/
structure QuestionOptions where
  a : String
  b : String
  c : String
  d : String
deriving DecidableEq, Repr

/-- Row of the `questions` table. -/
structure Question where
  id : Nat
  examId : Nat
  content : String
  options : QuestionOptions
  correctAnswer : String
  points : Int
  difficulty : Option String
  topic : Option String
  createdAt : Option Int
deriving DecidableEq, Repr

/-- Row of the `submissions` table; `endTime` and `score` are nullable
until the submission is graded. -/
structure Submission where
  id : Nat
  examId : Nat
  userId : Nat
  startTime : Int
  endTime : Option Int
  score : Option Int
  status : String
  createdAt : Option Int
deriving DecidableEq, Repr

/-- Row of the `answers` table. -/
structure Answer where
  id : Nat
  submissionId : Nat
  questionId : Nat
  answer : Option String
  isCorrect : Option Bool
  createdAt : Option Int
deriving DecidableEq, Repr

/-- The whole relational store, with the serial-id counters made explicit. -/
structure Store where
  users : List User
  exams : List Exam
  questions : List Question
  submissions : List Submission
  answers : List Answer
  nextSubmissionId : Nat
  nextAnswerId : Nat
deriving DecidableEq, Repr

/-! ## Storage operations (src/server/storage.ts, class DatabaseStorage) -/

/-- `DatabaseStorage.getUser`: first row of `users` with the given id. -/
def getUser (s : Store) (id : Nat) : Option User :=
  s.users.find? (fun u => u.id == id)

/-- `DatabaseStorage.getStudentsByClass`: users with role `student` and the
given class. -/
def getStudentsByClass (s : Store) (className : String) : List User :=
  s.users.filter (fun u => u.role == "student" && u.class_ == some className)

/-- `DatabaseStorage.getAllClasses`: the distinct non-null classes of
student users (`groupBy(users.class)`), in first-occurrence order. -/
def getAllClasses (s : Store) : List String :=
  (((s.users.filter (fun u => u.role == "student" && u.class_.isSome)).map
    (fun u => u.class_.getD "")).eraseDups)

/-- `DatabaseStorage.getExam`. -/
def getExam (s : Store) (id : Nat) : Option Exam :=
  s.exams.find? (fun e => e.id == id)

/-- `DatabaseStorage.getQuestionsByExam`. -/
def getQuestionsByExam (s : Store) (examId : Nat) : List Question :=
  s.questions.filter (fun q => q.examId == examId)

/-- `DatabaseStorage.getSubmissionsByExam`. -/
def getSubmissionsByExam (s : Store) (examId : Nat) : List Submission :=
  s.submissions.filter (fun sub => sub.examId == examId)

/-- The object passed to `storage.createSubmission` by the submit route
(`InsertSubmission` without the columns left to their defaults). -/
structure InsertSubmission where
  examId : Nat
  userId : Nat
  startTime : Int
  status : String
deriving DecidableEq, Repr

/-- `DatabaseStorage.createSubmission`: insert with a fresh serial id and
return the inserted row (`.returning()`). -/
def createSubmission (s : Store) (d : InsertSubmission) : Submission × Store :=
  let row : Submission :=
    { id := s.nextSubmissionId, examId := d.examId, userId := d.userId,
      startTime := d.startTime, endTime := none, score := none,
      status := d.status, createdAt := none }
  (row, { s with submissions := s.submissions ++ [row],
                 nextSubmissionId := s.nextSubmissionId + 1 })

/-- The object passed to `storage.saveAnswer` by the submit route. -/
structure InsertAnswer where
  submissionId : Nat
  questionId : Nat
  answer : Option String
  isCorrect : Option Bool
deriving DecidableEq, Repr

/-- `DatabaseStorage.saveAnswer`: insert an answer row with a fresh serial
id and return it. -/
def saveAnswer (s : Store) (d : InsertAnswer) : Answer × Store :=
  let row : Answer :=
    { id := s.nextAnswerId, submissionId := d.submissionId,
      questionId := d.questionId, answer := d.answer,
      isCorrect := d.isCorrect, createdAt := none }
  (row, { s with answers := s.answers ++ [row],
                 nextAnswerId := s.nextAnswerId + 1 })

/-- A `Partial<Submission>` as used by `DatabaseStorage.updateSubmission`:
a field is updated exactly when the corresponding option is `some`. -/
structure SubmissionPatch where
  examId : Option Nat := none
  userId : Option Nat := none
  startTime : Option Int := none
  endTime : Option (Option Int) := none
  score : Option (Option Int) := none
  status : Option String := none
deriving DecidableEq, Repr

/-- Apply a `SubmissionPatch` to one row (`.set(data)`). -/
def applyPatch (sub : Submission) (p : SubmissionPatch) : Submission :=
  { sub with
    examId := p.examId.getD sub.examId,
    userId := p.userId.getD sub.userId,
    startTime := p.startTime.getD sub.startTime,
    endTime := p.endTime.getD sub.endTime,
    score := p.score.getD sub.score,
    status := p.status.getD sub.status }

/-- `DatabaseStorage.updateSubmission`: update every row matching the id and
return the (first) updated row, `none` when no row matched. -/
def updateSubmission (s : Store) (id : Nat) (p : SubmissionPatch) :
    Option Submission × Store :=
  let subs := s.submissions.map
    (fun sub => if sub.id == id then applyPatch sub p else sub)
  (subs.find? (fun sub => sub.id == id), { s with submissions := subs })

/-! ## POST /api/exams/:examId/submit (src/server/routes.ts) -/

/-- One element of the request body's `answers` array
(`{questionId, answer}`). -/
structure AnswerInput where
  questionId : Nat
  answer : String
deriving DecidableEq, Repr

/-- Result of the grading loop inside the submit handler: either the
accumulated score, or the id of the first submitted `questionId` with no
matching question (the handler then responds 400). -/
inductive GradeResult where
  | done (score : Int)
  | badQuestion (qid : Nat)
deriving DecidableEq, Repr

/-- The `for (const answerData of answers)` loop of the submit handler:
look each answer's question up in the exam's question list, persist an
answer row with its correctness flag, and accumulate the points of correct
answers.  On an unknown `questionId` the loop stops; answer rows already
written stay in the store (no rollback in the source). -/
def gradeAnswers (qs : List Question) (subId : Nat) :
    List AnswerInput → Int → Store → GradeResult × Store
  | [], score, s => (.done score, s)
  | a :: rest, score, s =>
    match qs.find? (fun q => q.id == a.questionId) with
    | none => (.badQuestion a.questionId, s)
    | some q =>
      let isCorrect := q.correctAnswer == a.answer
      let s1 := (saveAnswer s
        { submissionId := subId, questionId := a.questionId,
          answer := some a.answer, isCorrect := some isCorrect }).2
      gradeAnswers qs subId rest (if isCorrect then score + q.points else score) s1

/-- Response of the submit handler: `ok` carries the body of the final
`res.json(updatedSubmission)` (which is `none` when the update matched no
row), `err` carries an HTTP status code and message. -/
inductive SubmitOutcome where
  | ok (body : Option Submission)
  | err (code : Nat) (msg : String)
deriving DecidableEq, Repr

/-- `// If we have an in-progress submission, use that; otherwise create a
new one`. -/
def resolveSubmission (s : Store) (existing : Option Submission)
    (examId userId : Nat) (now : Int) : Submission × Store :=
  match existing with
  | some sub => (sub, s)
  | none => createSubmission s
      { examId := examId, userId := userId,
        startTime := now, status := "in_progress" }

/-- The patch the handler passes to `storage.updateSubmission` at the end
of grading: `\x7b endTime: new Date(), score, status: 'completed' \x7d`. -/
def finalizePatch (now score : Int) : SubmissionPatch :=
  { endTime := some (some now), score := some (some score),
    status := some "completed" }

/-- `// Update the submission` and `return res.json(updatedSubmission)`. -/
def finalizeSubmission (s2 : Store) (subId : Nat) (now score : Int) :
    SubmitOutcome × Store :=
  let upd := updateSubmission s2 subId (finalizePatch now score)
  (.ok upd.1, upd.2)

/-- `// Calculate the score` plus the finalization: run the grading loop
and either answer 400 on the first unknown question id (keeping the answer
rows already written) or finalize the submission with the summed score. -/
def runGrading (qs : List Question) (subId : Nat) (answers : List AnswerInput)
    (s1 : Store) (now : Int) : SubmitOutcome × Store :=
  match gradeAnswers qs subId answers 0 s1 with
  | (.badQuestion qid, s2) =>
    (.err 400 ("Question with ID " ++ toString qid ++ " not found"), s2)
  | (.done score, s2) => finalizeSubmission s2 subId now score

/-- The `POST /api/exams/:examId/submit` handler.  `reqUser` is the
session-authenticated user (`none` = unauthenticated), `answersBody` is the
request body's `answers` field (`none` = not an array), `now` is the value
of `new Date()` during the request.  Returns the response and the store
after the request, errors included (partial writes are kept, as in the
source). -/
def submitExam (s : Store) (reqUser : Option User) (examId : Nat)
    (answersBody : Option (List AnswerInput)) (now : Int) :
    SubmitOutcome × Store :=
  match reqUser with
  | none => (.err 403 "Access denied", s)
  | some user =>
    if user.role ≠ "student" then (.err 403 "Access denied", s)
    else
      match getExam s examId with
      | none => (.err 404 "Exam not found", s)
      | some exam =>
        if user.class_ ≠ some exam.class_ then (.err 403 "Access denied", s)
        else
          let studentSubmission :=
            (getSubmissionsByExam s examId).find? (fun sub => sub.userId == user.id)
          if (match studentSubmission with
              | some sub => sub.status == "completed"
              | none => false) then
            (.err 400 "Exam already submitted", s)
          else
            let qs := getQuestionsByExam s examId
            match answersBody with
            | none => (.err 400 "No answers provided", s)
            | some [] => (.err 400 "No answers provided", s)
            | some answers =>
              let resolved := resolveSubmission s studentSubmission examId user.id now
              runGrading qs resolved.1.id answers resolved.2 now

/-! ## GET /api/users/students and GET /api/exams/:examId/submissions
(src/server/routes.ts) -/

/-- `studentWithoutPassword`: the spread `{...user}` with the `password`
key removed, as built by both listing endpoints. -/
structure PublicUser where
  id : Nat
  studentId : Option String
  fullName : String
  username : String
  email : Option String
  role : String
  class_ : Option String
  createdAt : Option Int
deriving DecidableEq, Repr

/-- `const \x7b password, ...studentWithoutPassword \x7d = student`. -/
def toPublicUser (u : User) : PublicUser :=
  { id := u.id, studentId := u.studentId, fullName := u.fullName,
    username := u.username, email := u.email, role := u.role,
    class_ := u.class_, createdAt := u.createdAt }

/-- Response of `GET /api/users/students`: a flat list when a `class`
query parameter was given, a class-keyed record otherwise. -/
inductive StudentsResponse where
  | err (code : Nat) (msg : String)
  | single (students : List PublicUser)
  | grouped (byClass : List (String × List PublicUser))
deriving DecidableEq, Repr

/-- The `GET /api/users/students` handler. -/
def getStudentsRoute (s : Store) (reqUser : Option User)
    (className : Option String) : StudentsResponse :=
  match reqUser with
  | none => .err 403 "Access denied"
  | some user =>
    if user.role ≠ "teacher" then .err 403 "Access denied"
    else
      match className with
      | some cls => .single ((getStudentsByClass s cls).map toPublicUser)
      | none =>
        .grouped ((getAllClasses s).map
          (fun cls => (cls, (getStudentsByClass s cls).map toPublicUser)))

/-- Response of `GET /api/exams/:examId/submissions`: each submission of
the exam paired with its student's password-free record (submissions whose
user is missing or not a student are skipped, as in the source loop). -/
inductive SubmissionsResponse where
  | err (code : Nat) (msg : String)
  | ok (rows : List (Submission × PublicUser))
deriving DecidableEq, Repr

/-- The `GET /api/exams/:examId/submissions` handler. -/
def getExamSubmissionsRoute (s : Store) (reqUser : Option User)
    (examId : Nat) : SubmissionsResponse :=
  match reqUser with
  | none => .err 403 "Access denied"
  | some user =>
    if user.role ≠ "teacher" then .err 403 "Access denied"
    else
      match getExam s examId with
      | none => .err 404 "Exam not found"
      | some exam =>
        if exam.createdById ≠ user.id then .err 403 "Access denied"
        else
          .ok ((getSubmissionsByExam s examId).filterMap (fun sub =>
            match getUser s sub.userId with
            | some student =>
              if student.role == "student" then some (sub, toPublicUser student)
              else none
            | none => none))

/-! ## Countdown timer (src/unnamed/part_002, ExamTaking)

The two timer effects are modelled as a state machine over
`TimerState`: the init effect computes
`max(0, floor((endTime - now) / 1000))`, the interval callback is one
`timerTick`.  `intervalActive` tracks whether a live interval exists: the
callback clears the interval when the previous value is already `≤ 0`, and
because it then returns the unchanged value `0`, the `[timeRemaining]`
effect does not run again and no new interval is created.  After any other
tick the effect re-runs and re-creates the interval, so `intervalActive`
stays true.  `timeUpSignals` counts the `setShowTimeUpDialog(true)`
calls. -/

/-- Client-side countdown state. -/
structure TimerState where
  timeRemaining : Nat
  intervalActive : Bool
  timeUpSignals : Nat
deriving DecidableEq, Repr

/-- `Math.max(0, Math.floor((endTime - now) / 1000))` with times in epoch
milliseconds (`Math.floor` on an exact ratio is floor division). -/
def initialTimeRemaining (endTime now : Int) : Nat :=
  (max 0 ((endTime - now).fdiv 1000)).toNat

/-- State after the initialisation effect has run and the interval has
been installed. -/
def initTimer (endTime now : Int) : TimerState :=
  { timeRemaining := initialTimeRemaining endTime now,
    intervalActive := true, timeUpSignals := 0 }

/-- One firing of the `setInterval` callback (a no-op once the interval
has been cleared). -/
def timerTick (st : TimerState) : TimerState :=
  if st.intervalActive then
    if st.timeRemaining = 0 then
      { timeRemaining := 0, intervalActive := false,
        timeUpSignals := st.timeUpSignals + 1 }
    else
      { st with timeRemaining := st.timeRemaining - 1 }
  else st

/-- `n` one-second ticks. -/
def ticks : Nat → TimerState → TimerState
  | 0, st => st
  | n + 1, st => ticks n (timerTick st)

/-! ## Specification-side definitions -/

/-- Spec-side score: the sum, over the submitted answer list, of the point
values of the entries whose chosen option label equals the stored correct
answer label of the question the handler looks up for that entry. -/
def scoreSpec (qs : List Question) (ans : List AnswerInput) : Int :=
  (ans.map (fun a =>
    match qs.find? (fun q => q.id == a.questionId) with
    | some q => if q.correctAnswer == a.answer then q.points else 0
    | none => 0)).sum

/-- Spec-side grading invariant for one stored answer row: there is a
question (the one the handler found for this row's `questionId`) and a
submitted string such that the row's `isCorrect` flag holds exactly when
that string equals the question's stored `correctAnswer`. -/
def answerGradedCorrectly (qs : List Question) (r : Answer) : Prop :=
  ∃ q a, qs.find? (fun qq => qq.id == r.questionId) = some q ∧
    r.answer = some a ∧ r.isCorrect = some (q.correctAnswer == a)

/-! ## Concrete fixtures used by witnesses and counterexamples -/

/-- A teacher account. -/
def demoTeacher : User :=
  { id := 2, studentId := none, fullName := "Teacher", username := "t",
    password := "secret1", email := some "t@school", role := "teacher",
    class_ := none, createdAt := none }

/-- A student account in class 10A. -/
def demoStudent : User :=
  { id := 1, studentId := some "S1", fullName := "Student", username := "s",
    password := "secret2", email := none, role := "student",
    class_ := some "10A", createdAt := none }

/-- A four-option map. -/
def demoOptions : QuestionOptions := { a := "1", b := "2", c := "3", d := "4" }

/-- An active exam for class 10A created by the teacher. -/
def demoExam : Exam :=
  { id := 1, title := "Algebra", subject := "math", class_ := "10A",
    topic := none, startTime := 0, endTime := 100000, duration := 60,
    status := "active", createdById := 2, createdAt := none }

/-- A question of exam 1 with the given id, correct label and points. -/
def demoQ (i : Nat) (ca : String) (pts : Int) : Question :=
  { id := i, examId := 1, content := "q", options := demoOptions,
    correctAnswer := ca, points := pts, difficulty := none, topic := none,
    createdAt := none }

/-- Store holding the spec's end-to-end scenario: three questions with
correct answers A, B, C worth 1, 2, 3 points, and no submissions yet. -/
def demoStore : Store :=
  { users := [demoStudent, demoTeacher], exams := [demoExam],
    questions := [demoQ 1 "A" 1, demoQ 2 "B" 2, demoQ 3 "C" 3],
    submissions := [], answers := [], nextSubmissionId := 1, nextAnswerId := 1 }

/-- A completed submission by the student for exam 1. -/
def demoDoneSub : Submission :=
  { id := 1, examId := 1, userId := 1, startTime := 1000,
    endTime := some 2000, score := some 3,
    status := "completed", createdAt := none }

/-- An in-progress submission by the student for exam 1. -/
def demoIpSub : Submission :=
  { id := 1, examId := 1, userId := 1, startTime := 1000,
    endTime := none, score := none,
    status := "in_progress", createdAt := none }

/-- `demoStore` with an already-completed submission by the student. -/
def demoStoreDone : Store :=
  { demoStore with submissions := [demoDoneSub], nextSubmissionId := 2 }

/-- `demoStore` with an in-progress submission by the student. -/
def demoStoreInProgress : Store :=
  { demoStore with submissions := [demoIpSub], nextSubmissionId := 2 }

/-- The spec's end-to-end batch: answers A, B, D for questions 1, 2, 3. -/
def demoAnswers : List AnswerInput := [⟨1, "A"⟩, ⟨2, "B"⟩, ⟨3, "D"⟩]

/-- The finalized submission the end-to-end scenario produces. -/
def demoFinSub : Submission :=
  { id := 1, examId := 1, userId := 1, startTime := 5000,
    endTime := some 5000, score := some 3,
    status := "completed", createdAt := none }

/-- The first answer row written by the end-to-end scenario. -/
def demoRow : Answer :=
  { id := 1, submissionId := 1, questionId := 1, answer := some "A",
    isCorrect := some true, createdAt := none }

/-- A submitted entry whose question id 99 belongs to no question. -/
def demoBad : AnswerInput := ⟨99, "B"⟩

/-! ## Timer lemmas -/

theorem timerTick_inactive (r k : Nat) :
    timerTick { timeRemaining := r, intervalActive := false, timeUpSignals := k } =
    { timeRemaining := r, intervalActive := false, timeUpSignals := k } := by
  simp [timerTick]

theorem ticks_inactive (n r k : Nat) :
    ticks n { timeRemaining := r, intervalActive := false, timeUpSignals := k } =
    { timeRemaining := r, intervalActive := false, timeUpSignals := k } := by
  induction n with
  | zero => rfl
  | succ n ih => rw [ticks, timerTick_inactive]; exact ih

theorem ticks_le (n : Nat) : ∀ r k : Nat, n ≤ r →
    ticks n { timeRemaining := r, intervalActive := true, timeUpSignals := k } =
    { timeRemaining := r - n, intervalActive := true, timeUpSignals := k } := by
  induction n with
  | zero => intro r k _; rfl
  | succ n ih =>
    intro r k h
    have hr : r ≠ 0 := by omega
    rw [ticks]
    have ht : timerTick { timeRemaining := r, intervalActive := true, timeUpSignals := k } =
        { timeRemaining := r - 1, intervalActive := true, timeUpSignals := k } := by
      simp [timerTick, hr]
    rw [ht, ih (r - 1) k (by omega)]
    congr 1
    omega

theorem ticks_add (m n : Nat) : ∀ st : TimerState,
    ticks (m + n) st = ticks n (ticks m st) := by
  induction m with
  | zero => intro st; rw [Nat.zero_add]; rfl
  | succ m ih =>
    intro st
    have : m + 1 + n = (m + n) + 1 := by omega
    rw [this, ticks, ticks, ih]

theorem tick_at_zero (k : Nat) :
    timerTick { timeRemaining := 0, intervalActive := true, timeUpSignals := k } =
    { timeRemaining := 0, intervalActive := false, timeUpSignals := k + 1 } := by
  simp [timerTick]

theorem ticks_one (st : TimerState) : ticks 1 st = timerTick st := rfl

/-- The timer state reached from a zero remaining time with a live
interval, after `n + 1` ticks: the signal has fired exactly once and the
interval is cleared. -/
theorem ticks_from_zero (n k : Nat) :
    ticks (1 + n) { timeRemaining := 0, intervalActive := true, timeUpSignals := k } =
    { timeRemaining := 0, intervalActive := false, timeUpSignals := k + 1 } := by
  rw [ticks_add, ticks_one, tick_at_zero, ticks_inactive]

/-- C7: for a countdown started with `endTime = now + 65` seconds, after 65
one-second ticks the remaining time is exactly 0, and the time-expired
signal is raised exactly once over the whole run: its count never exceeds
one at any tick, and from the tick on which it fires (the 66th) onward it
stays exactly one — it is never raised a second time. -/
theorem countdown_65s_expires_once (now : Int) :
    (ticks 65 (initTimer (now + 65000) now)).timeRemaining = 0 ∧
    (∀ n, (ticks n (initTimer (now + 65000) now)).timeUpSignals ≤ 1) ∧
    (∀ n, 66 ≤ n → (ticks n (initTimer (now + 65000) now)).timeUpSignals = 1) := by
  have hd : now + 65000 - now = (65000 : Int) := by omega
  have hinit : initTimer (now + 65000) now =
      { timeRemaining := 65, intervalActive := true, timeUpSignals := 0 } := by
    unfold initTimer initialTimeRemaining
    rw [hd]
    decide
  have h66 : ∀ m, (ticks (66 + m) (initTimer (now + 65000) now)) =
      { timeRemaining := 0, intervalActive := false, timeUpSignals := 1 } := by
    intro m
    rw [hinit]
    have : 66 + m = 65 + (1 + m) := by omega
    rw [this, ticks_add, ticks_le 65 65 0 (le_refl 65)]
    have h0 : (65 : Nat) - 65 = 0 := by omega
    rw [h0, ticks_from_zero]
  refine ⟨?_, ?_, ?_⟩
  · rw [hinit, ticks_le 65 65 0 (le_refl 65)]
  · intro n
    rcases (by omega : n ≤ 65 ∨ 66 ≤ n) with hn | hn
    · rw [hinit, ticks_le n 65 0 hn]
      exact Nat.zero_le 1
    · obtain ⟨m, rfl⟩ : ∃ m, n = 66 + m := ⟨n - 66, by omega⟩
      rw [h66 m]
  · intro n hn
    obtain ⟨m, rfl⟩ : ∃ m, n = 66 + m := ⟨n - 66, by omega⟩
    rw [h66 m]

/-- C8 counterexample: with the exam's end time already 5 seconds in the
past when the page is opened, the initial remaining time is 0 but the
time-expired signal has NOT fired before the first tick — its count right
after initialisation is 0, refuting "the time-expired signal fires
immediately, without waiting for any tick". -/
theorem countdown_expired_no_signal_before_tick_cex :
    (initTimer 0 5000).timeRemaining = 0 ∧
    (initTimer 0 5000).timeUpSignals = 0 ∧
    (ticks 1 (initTimer 0 5000)).timeUpSignals = 1 := by decide

/-- C8 (amended): if the exam page is opened at or after the exam's end
time, the initially computed remaining time is exactly 0 (never negative,
computed as `max(0, floor((endTime - now)/1000))`), and the time-expired
signal fires on the first one-second tick — not before any tick — and
exactly once: its count is 1 after the first tick and never exceeds 1. -/
theorem countdown_expired_fires_on_first_tick (endTime now : Int)
    (h : endTime ≤ now) :
    (initTimer endTime now).timeRemaining = 0 ∧
    (initTimer endTime now).timeUpSignals = 0 ∧
    (ticks 1 (initTimer endTime now)).timeUpSignals = 1 ∧
    ∀ n, (ticks n (initTimer endTime now)).timeUpSignals ≤ 1 := by
  have hinit : initTimer endTime now =
      { timeRemaining := 0, intervalActive := true, timeUpSignals := 0 } := by
    unfold initTimer initialTimeRemaining
    have hz : (max 0 ((endTime - now).fdiv 1000)).toNat = 0 := by
      rw [Int.toNat_eq_zero, max_le_iff, Int.fdiv_eq_ediv _ (by norm_num)]
      exact ⟨le_refl 0, by omega⟩
    rw [hz]
  refine ⟨by rw [hinit], by rw [hinit], ?_, ?_⟩
  · rw [hinit, ticks_one, tick_at_zero]
  · intro n
    rw [hinit]
    match n with
    | 0 => exact Nat.zero_le 1
    | Nat.succ m =>
      have hsm : Nat.succ m = 1 + m := by omega
      rw [hsm, ticks_from_zero]

/-! ## Grading-loop lemmas -/

theorem saveAnswer_answers (s : Store) (d : InsertAnswer) :
    ((saveAnswer s d).2).answers = s.answers ++
      [{ id := s.nextAnswerId, submissionId := d.submissionId,
         questionId := d.questionId, answer := d.answer,
         isCorrect := d.isCorrect, createdAt := none }] := rfl

theorem gradeAnswers_submissions (qs : List Question) (subId : Nat) :
    ∀ (ans : List AnswerInput) (score : Int) (s : Store),
    ((gradeAnswers qs subId ans score s).2).submissions = s.submissions := by
  intro ans
  induction ans with
  | nil => intro score s; rfl
  | cons a rest ih =>
    intro score s
    simp only [gradeAnswers]
    cases hf : qs.find? (fun q => q.id == a.questionId) with
    | none => rfl
    | some q =>
      simp only []
      rw [ih]
      rfl

theorem gradeAnswers_done_score (qs : List Question) (subId : Nat) :
    ∀ (ans : List AnswerInput) (score : Int) (s : Store) (total : Int) (s2 : Store),
    gradeAnswers qs subId ans score s = (.done total, s2) →
    total = score + scoreSpec qs ans := by
  intro ans
  induction ans with
  | nil =>
    intro score s total s2 h
    simp only [gradeAnswers, Prod.mk.injEq, GradeResult.done.injEq] at h
    simp [scoreSpec, h.1.symm]
  | cons a rest ih =>
    intro score s total s2 h
    simp only [gradeAnswers] at h
    cases hf : qs.find? (fun q => q.id == a.questionId) with
    | none => rw [hf] at h; simp at h
    | some q =>
      rw [hf] at h
      simp only [] at h
      have := ih _ _ _ _ h
      simp only [scoreSpec, List.map_cons, List.sum_cons, hf] at this ⊢
      cases hc : q.correctAnswer == a.answer with
      | true => rw [hc] at this; simp at this ⊢; omega
      | false => rw [hc] at this; simp at this ⊢; omega

theorem gradeAnswers_rows_graded (qs : List Question) (subId : Nat) :
    ∀ (ans : List AnswerInput) (score : Int) (s : Store) (r : Answer),
    r ∈ ((gradeAnswers qs subId ans score s).2).answers →
    r ∈ s.answers ∨ answerGradedCorrectly qs r := by
  intro ans
  induction ans with
  | nil => intro score s r h; exact Or.inl h
  | cons a rest ih =>
    intro score s r h
    simp only [gradeAnswers] at h
    cases hf : qs.find? (fun q => q.id == a.questionId) with
    | none => rw [hf] at h; exact Or.inl h
    | some q =>
      rw [hf] at h
      simp only [] at h
      rcases ih _ _ _ h with hmem | hg
      · rw [saveAnswer_answers, List.mem_append] at hmem
        rcases hmem with hold | hnew
        · exact Or.inl hold
        · right
          rcases List.mem_singleton.mp hnew with rfl
          exact ⟨q, a.answer, hf, rfl, rfl⟩
      · exact Or.inr hg

theorem gradeAnswers_rows_shape (qs : List Question) (subId : Nat) :
    ∀ (ans : List AnswerInput) (score : Int) (s : Store),
    ∃ rows pre suf, ans = pre ++ suf ∧
      ((gradeAnswers qs subId ans score s).2).answers = s.answers ++ rows ∧
      rows.map (fun r => r.questionId) = pre.map (fun a => a.questionId) ∧
      ∀ r ∈ rows, r.submissionId = subId := by
  intro ans
  induction ans with
  | nil =>
    intro score s
    exact ⟨[], [], [], rfl, by simp [gradeAnswers], rfl, by simp⟩
  | cons a rest ih =>
    intro score s
    cases hf : qs.find? (fun q => q.id == a.questionId) with
    | none =>
      refine ⟨[], [], a :: rest, rfl, ?_, rfl, by simp⟩
      simp [gradeAnswers, hf]
    | some q =>
      obtain ⟨rows, pre, suf, hsplit, hans, hmap, hsub⟩ :=
        ih (if q.correctAnswer == a.answer then score + q.points else score)
          ((saveAnswer s
            { submissionId := subId, questionId := a.questionId,
              answer := some a.answer,
              isCorrect := some (q.correctAnswer == a.answer) }).2)
      refine ⟨{ id := s.nextAnswerId, submissionId := subId,
                questionId := a.questionId, answer := some a.answer,
                isCorrect := some (q.correctAnswer == a.answer),
                createdAt := none } :: rows,
              a :: pre, suf, by rw [hsplit, List.cons_append], ?_, ?_, ?_⟩
      · simp only [gradeAnswers, hf]
        rw [hans, saveAnswer_answers]
        simp
      · simp [hmap]
      · intro r hr
        rcases List.mem_cons.mp hr with rfl | hr
        · rfl
        · exact hsub r hr

theorem gradeAnswers_all_found (qs : List Question) (subId : Nat) :
    ∀ (ans : List AnswerInput) (score : Int) (s : Store),
    (∀ a ∈ ans, (qs.find? (fun q => q.id == a.questionId)).isSome) →
    ∃ total s2, gradeAnswers qs subId ans score s = (.done total, s2) := by
  intro ans
  induction ans with
  | nil => intro score s _; exact ⟨score, s, rfl⟩
  | cons a rest ih =>
    intro score s h
    obtain ⟨q, hf⟩ := Option.isSome_iff_exists.mp (h a (List.mem_cons_self a rest))
    obtain ⟨total, s2, hrec⟩ :=
      ih (if q.correctAnswer == a.answer then score + q.points else score)
        ((saveAnswer s
          { submissionId := subId, questionId := a.questionId,
            answer := some a.answer,
            isCorrect := some (q.correctAnswer == a.answer) }).2)
        (fun b hb => h b (List.mem_cons_of_mem a hb))
    refine ⟨total, s2, ?_⟩
    simp only [gradeAnswers, hf]
    exact hrec

theorem gradeAnswers_stops_at_bad (qs : List Question) (subId : Nat)
    (bad : AnswerInput) (hbad : qs.find? (fun q => q.id == bad.questionId) = none) :
    ∀ (pre rest : List AnswerInput) (score : Int) (s : Store),
    (∀ a ∈ pre, (qs.find? (fun q => q.id == a.questionId)).isSome) →
    ∃ s2 rows,
      gradeAnswers qs subId (pre ++ bad :: rest) score s =
        (.badQuestion bad.questionId, s2) ∧
      s2.answers = s.answers ++ rows ∧
      rows.map (fun r => r.questionId) = pre.map (fun a => a.questionId) ∧
      ∀ r ∈ rows, r.submissionId = subId := by
  intro pre
  induction pre with
  | nil =>
    intro rest score s _
    refine ⟨s, [], ?_, by simp, rfl, by simp⟩
    simp [gradeAnswers, hbad]
  | cons a pre ih =>
    intro rest score s h
    obtain ⟨q, hf⟩ := Option.isSome_iff_exists.mp (h a (List.mem_cons_self a pre))
    obtain ⟨s2, rows, hrec, hans, hmap, hsub⟩ :=
      ih rest (if q.correctAnswer == a.answer then score + q.points else score)
        ((saveAnswer s
          { submissionId := subId, questionId := a.questionId,
            answer := some a.answer,
            isCorrect := some (q.correctAnswer == a.answer) }).2)
        (fun b hb => h b (List.mem_cons_of_mem a hb))
    refine ⟨s2, { id := s.nextAnswerId, submissionId := subId,
                  questionId := a.questionId, answer := some a.answer,
                  isCorrect := some (q.correctAnswer == a.answer),
                  createdAt := none } :: rows, ?_, ?_, ?_, ?_⟩
    · simp only [List.cons_append, gradeAnswers, hf]
      exact hrec
    · rw [hans, saveAnswer_answers]
      simp
    · simp [hmap]
    · intro r hr
      rcases List.mem_cons.mp hr with rfl | hr
      · rfl
      · exact hsub r hr

/-! ## Submission-endpoint theorems -/

/-- Whether a response is a client error (4xx). -/
def isClientError : SubmitOutcome → Bool
  | .err code _ => 400 ≤ code && code < 500
  | .ok _ => false

theorem resolveSubmission_answers (s : Store) (o : Option Submission)
    (examId userId : Nat) (now : Int) :
    ((resolveSubmission s o examId userId now).2).answers = s.answers := by
  cases o <;> rfl

theorem updateSubmission_answers (s : Store) (id : Nat) (p : SubmissionPatch) :
    ((updateSubmission s id p).2).answers = s.answers := rfl

theorem applyPatch_finalize (sub : Submission) (now score : Int) :
    applyPatch sub (finalizePatch now score) =
    { sub with endTime := some now, score := some score, status := "completed" } := rfl

/-- If the grading phase answers `ok` with a submission body, that body
has the spec-side score, status `completed`, and is stored. -/
theorem runGrading_ok (qs : List Question) (subId : Nat) (ans : List AnswerInput)
    (s1 : Store) (now : Int) (subFin : Submission) (s' : Store)
    (h : runGrading qs subId ans s1 now = (.ok (some subFin), s')) :
    subFin.score = some (scoreSpec qs ans) ∧ subFin.status = "completed" ∧
    subFin ∈ s'.submissions := by
  unfold runGrading at h
  split at h
  · simp at h
  · rename_i score s2 heq
    simp only [finalizeSubmission, updateSubmission] at h
    injection h with h1 h2
    injection h1 with h1
    have hmem : subFin ∈ s2.submissions.map
        (fun sub => if sub.id == subId then applyPatch sub (finalizePatch now score) else sub) :=
      List.mem_of_find?_eq_some h1
    have hpred : (subFin.id == subId) = true := (List.find?_eq_some.mp h1).1
    obtain ⟨x, hx, hfx⟩ := List.mem_map.mp hmem
    have hsubs : s'.submissions = s2.submissions.map
        (fun sub => if sub.id == subId then applyPatch sub (finalizePatch now score) else sub) :=
      (congrArg Store.submissions h2).symm
    by_cases hc : (x.id == subId) = true
    · rw [if_pos hc] at hfx
      have hscore : score = 0 + scoreSpec qs ans :=
        gradeAnswers_done_score qs subId ans 0 s1 score s2 heq

      refine ⟨?_, ?_, ?_⟩
      · rw [← hfx, applyPatch_finalize]
        rw [hscore]
        simp
      · rw [← hfx, applyPatch_finalize]
      · rw [hsubs]
        exact hmem
    · rw [if_neg hc] at hfx
      rw [hfx] at hc
      exact absurd hpred hc

/-- Every answer row present after the grading phase was either already
stored before it or was written by it with a correctly computed
`isCorrect` flag. -/
theorem runGrading_answers (qs : List Question) (subId : Nat)
    (ans : List AnswerInput) (s1 : Store) (now : Int) (out : SubmitOutcome)
    (s' : Store) (h : runGrading qs subId ans s1 now = (out, s')) :
    ∀ r ∈ s'.answers, r ∈ s1.answers ∨ answerGradedCorrectly qs r := by
  unfold runGrading at h
  split at h
  · rename_i qid s2 heq
    injection h with h1 h2
    intro r hr
    refine gradeAnswers_rows_graded qs subId ans 0 s1 r ?_
    rw [congrArg Prod.snd heq, h2]
    exact hr
  · rename_i score s2 heq
    simp only [finalizeSubmission] at h
    injection h with h1 h2
    intro r hr
    refine gradeAnswers_rows_graded qs subId ans 0 s1 r ?_
    rw [congrArg Prod.snd heq]
    have : s'.answers = s2.answers := by
      rw [← h2]
      exact updateSubmission_answers s2 subId (finalizePatch now score)
    rw [← this]
    exact hr

/-- C1: whenever the submit endpoint answers success with a finalized
submission, the score stored on it equals the sum of the point values of
exactly those entries of the submitted answer list whose chosen option
label equals the stored correct answer label of the question looked up
for that entry (`scoreSpec`); the submission is marked completed and is
stored. -/
theorem submit_score_is_sum (s : Store) (reqUser : Option User) (examId : Nat)
    (ansList : List AnswerInput) (now : Int) (subFin : Submission) (s' : Store)
    (h : submitExam s reqUser examId (some ansList) now = (.ok (some subFin), s')) :
    subFin.score = some (scoreSpec (getQuestionsByExam s examId) ansList) ∧
    subFin.status = "completed" ∧ subFin ∈ s'.submissions := by
  cases reqUser with
  | none => simp only [submitExam] at h; exact absurd h (by simp)
  | some user =>
    simp only [submitExam] at h
    split at h
    · exact absurd h (by simp)
    · split at h
      · exact absurd h (by simp)
      · split at h
        · exact absurd h (by simp)
        · split at h
          · exact absurd h (by simp)
          · split at h
            · exact absurd h (by simp)
            · exact absurd h (by simp)
            · rename_i answers hne heq
              injection heq with heq
              subst heq
              exact runGrading_ok _ _ _ _ _ _ _ h

/-- C2: every answer row persisted by a submit request (whatever its
outcome) has `isCorrect = (submitted answer string == the question's
stored correctAnswer)` for the question the handler looked up by the
row's `questionId`. -/
theorem submit_answers_graded (s : Store) (reqUser : Option User)
    (examId : Nat) (body : Option (List AnswerInput)) (now : Int)
    (out : SubmitOutcome) (s' : Store)
    (h : submitExam s reqUser examId body now = (out, s')) :
    ∀ r ∈ s'.answers, r ∈ s.answers ∨
      answerGradedCorrectly (getQuestionsByExam s examId) r := by
  cases reqUser with
  | none =>
    simp only [submitExam] at h
    injection h with h1 h2
    subst h2
    exact fun r hr => Or.inl hr
  | some user =>
    simp only [submitExam] at h
    split at h
    · injection h with h1 h2; subst h2; exact fun r hr => Or.inl hr
    · split at h
      · injection h with h1 h2; subst h2; exact fun r hr => Or.inl hr
      · split at h
        · injection h with h1 h2; subst h2; exact fun r hr => Or.inl hr
        · split at h
          · injection h with h1 h2; subst h2; exact fun r hr => Or.inl hr
          · split at h
            · injection h with h1 h2; subst h2; exact fun r hr => Or.inl hr
            · injection h with h1 h2; subst h2; exact fun r hr => Or.inl hr
            · rename_i answers hne heq
              intro r hr
              rcases runGrading_answers _ _ _ _ _ _ _ h r hr with hmem | hg
              · rw [resolveSubmission_answers] at hmem
                exact Or.inl hmem
              · exact Or.inr hg

/-- C3: a submission request by a student who already has a completed
submission for the exam is rejected with HTTP 400 and leaves the whole
store — in particular the existing submission's score and status and all
stored answer rows — unchanged. -/
theorem submit_resubmission_rejected (s : Store) (u : User) (examId : Nat)
    (body : Option (List AnswerInput)) (now : Int) (exam : Exam)
    (sub0 : Submission) (out : SubmitOutcome) (s' : Store)
    (h : submitExam s (some u) examId body now = (out, s'))
    (hrole : u.role = "student")
    (hex : getExam s examId = some exam)
    (hcls : u.class_ = some exam.class_)
    (hfind : (getSubmissionsByExam s examId).find? (fun x => x.userId == u.id) = some sub0)
    (hdone : sub0.status = "completed") :
    out = .err 400 "Exam already submitted" ∧ s' = s := by
  simp only [submitExam] at h
  split at h
  · exact absurd hrole (by assumption)
  · split at h
    · rename_i heq
      rw [heq] at hex
      exact absurd hex (by simp)
    · rename_i e heq
      rw [heq] at hex
      injection hex with hex
      subst hex
      split at h
      · exact absurd hcls (by assumption)
      · rw [hfind] at h
        simp only [hdone] at h
        split at h
        · injection h with h1 h2
          exact ⟨h1.symm, h2.symm⟩
        · rename_i hc
          simp at hc

theorem err_pair_inv {c : Nat} {m : String} {out : SubmitOutcome} {s s' : Store}
    (h : (SubmitOutcome.err c m, s) = (out, s')) (hc : 400 ≤ c ∧ c < 500) :
    isClientError out = true ∧ s' = s := by
  injection h with h1 h2
  subst h1
  refine ⟨?_, h2.symm⟩
  simp only [isClientError, Bool.and_eq_true, decide_eq_true_eq]
  omega

/-- C4: a submission request whose `answers` field is not a non-empty
array is rejected with a client error (4xx) and performs no write at all:
the store after the request is the store before it, so no submission row
is created or updated and no answer row is written. -/
theorem submit_empty_rejected_no_writes (s : Store) (reqUser : Option User)
    (examId : Nat) (body : Option (List AnswerInput)) (now : Int)
    (out : SubmitOutcome) (s' : Store)
    (h : submitExam s reqUser examId body now = (out, s'))
    (hbody : body = none ∨ body = some []) :
    isClientError out = true ∧ s' = s := by
  rcases hbody with rfl | rfl <;>
  [skip; skip] <;>
  · cases reqUser with
    | none =>
      simp only [submitExam] at h
      exact err_pair_inv h (by omega)
    | some user =>
      simp only [submitExam] at h
      split at h
      · exact err_pair_inv h (by omega)
      · split at h
        · exact err_pair_inv h (by omega)
        · split at h
          · exact err_pair_inv h (by omega)
          · split at h
            · exact err_pair_inv h (by omega)
            · exact err_pair_inv h (by omega)

/-- C5: a submission request containing a `questionId` unknown to the exam
(first at some position, with every earlier entry resolving) is rejected
with HTTP 400; the submission is never marked completed and gets no
score (any submission row created by the request stays `in_progress` with
a null score); yet the answer rows written for the entries preceding the
unknown id remain persisted — the post-store's answer list extends the
pre-store's by exactly one row per preceding entry, in order (no
rollback). -/
theorem submit_unknown_question_partial (s : Store) (u : User) (examId : Nat)
    (pre : List AnswerInput) (bad : AnswerInput) (rest : List AnswerInput)
    (now : Int) (exam : Exam) (out : SubmitOutcome) (s' : Store)
    (h : submitExam s (some u) examId (some (pre ++ bad :: rest)) now = (out, s'))
    (hrole : u.role = "student")
    (hex : getExam s examId = some exam)
    (hcls : u.class_ = some exam.class_)
    (hns : ∀ sub, (getSubmissionsByExam s examId).find? (fun x => x.userId == u.id) = some sub →
      sub.status ≠ "completed")
    (hpre : ∀ a ∈ pre, ((getQuestionsByExam s examId).find? (fun q => q.id == a.questionId)).isSome)
    (hbad : (getQuestionsByExam s examId).find? (fun q => q.id == bad.questionId) = none) :
    out = .err 400 ("Question with ID " ++ toString bad.questionId ++ " not found") ∧
    (∀ sub ∈ s'.submissions, sub.status = "completed" → sub ∈ s.submissions) ∧
    (∀ sub ∈ s'.submissions, sub ∉ s.submissions →
      sub.status = "in_progress" ∧ sub.score = none) ∧
    s'.answers = s.answers ++ s'.answers.drop s.answers.length ∧
    (s'.answers.drop s.answers.length).map (fun r => r.questionId) =
      pre.map (fun a => a.questionId) := by
  simp only [submitExam] at h
  split at h
  · exact absurd hrole (by assumption)
  · split at h
    · rename_i heq
      rw [heq] at hex
      exact absurd hex (by simp)
    · rename_i e heq
      rw [heq] at hex
      injection hex with hex
      subst hex
      split at h
      · exact absurd hcls (by assumption)
      · split at h
        · rename_i hc
          rcases hf : (getSubmissionsByExam s examId).find? (fun x => x.userId == u.id) with
            _ | sub0
          · rw [hf] at hc; simp at hc
          · rw [hf] at hc
            simp only [] at hc
            exact absurd (by simpa using hc) (hns sub0 hf)
        · split at h
          · rename_i heq
            exact absurd heq (by simp)
          · rename_i heq
            injection heq with heq
            exact absurd heq.symm (by simp)
          · rename_i answers hne heq
            injection heq with heq
            subst heq
            rcases hf : (getSubmissionsByExam s examId).find? (fun x => x.userId == u.id) with
              _ | sub0
            all_goals rw [hf] at h
            all_goals simp only [resolveSubmission] at h
            · -- no prior submission: one is created, then grading fails
              obtain ⟨s2, rows, hg, hans, hmap, hsub⟩ :=
                gradeAnswers_stops_at_bad (getQuestionsByExam s examId)
                  (createSubmission s
                    { examId := examId, userId := u.id,
                      startTime := now, status := "in_progress" }).1.id
                  bad hbad pre rest 0
                  (createSubmission s
                    { examId := examId, userId := u.id,
                      startTime := now, status := "in_progress" }).2 hpre
              unfold runGrading at h
              rw [hg] at h
              injection h with h1 h2
              subst h2
              have hg2 : (gradeAnswers (getQuestionsByExam s examId)
                  (createSubmission s
                    { examId := examId, userId := u.id,
                      startTime := now, status := "in_progress" }).1.id
                  (pre ++ bad :: rest) 0
                  (createSubmission s
                    { examId := examId, userId := u.id,
                      startTime := now, status := "in_progress" }).2).2 = s2 := by
                rw [hg]
              have hsubs : s2.submissions = s.submissions ++
                  [(createSubmission s
                    { examId := examId, userId := u.id,
                      startTime := now, status := "in_progress" }).1] := by
                rw [← hg2, gradeAnswers_submissions]
                rfl
              have hansEq : s2.answers = s.answers ++ rows := hans
              have hdrop : List.drop s.answers.length s2.answers = rows := by
                rw [hansEq]
                exact List.drop_left s.answers rows
              refine ⟨h1.symm, ?_, ?_, ?_, ?_⟩
              · intro sub hmem hcomp
                rw [hsubs] at hmem
                rcases List.mem_append.mp hmem with hin | hnew
                · exact hin
                · rcases List.mem_singleton.mp hnew with rfl
                  simp [createSubmission] at hcomp
              · intro sub hmem hnot
                rw [hsubs] at hmem
                rcases List.mem_append.mp hmem with hin | hnew
                · exact absurd hin hnot
                · rcases List.mem_singleton.mp hnew with rfl
                  exact ⟨rfl, rfl⟩
              · rw [hdrop]; exact hansEq
              · rw [hdrop]; exact hmap
            · -- an in-progress submission is reused
              obtain ⟨s2, rows, hg, hans, hmap, hsub⟩ :=
                gradeAnswers_stops_at_bad (getQuestionsByExam s examId)
                  sub0.id bad hbad pre rest 0 s hpre
              unfold runGrading at h
              rw [hg] at h
              injection h with h1 h2
              subst h2
              have hg2 : (gradeAnswers (getQuestionsByExam s examId) sub0.id
                  (pre ++ bad :: rest) 0 s).2 = s2 := by
                rw [hg]
              have hsubs : s2.submissions = s.submissions := by
                rw [← hg2, gradeAnswers_submissions]
              have hansEq : s2.answers = s.answers ++ rows := hans
              have hdrop : List.drop s.answers.length s2.answers = rows := by
                rw [hansEq]
                exact List.drop_left s.answers rows
              refine ⟨h1.symm, ?_, ?_, ?_, ?_⟩
              · intro sub hmem _
                rw [hsubs] at hmem
                exact hmem
              · intro sub hmem hnot
                rw [hsubs] at hmem
                exact absurd hmem hnot
              · rw [hdrop]; exact hansEq
              · rw [hdrop]; exact hmap

/-- Whatever the grading phase's outcome, the post-store's answer list is
the pre-store's followed by one new row per processed entry (a prefix of
the batch), in order, all for the graded submission. -/
theorem runGrading_answers_shape (qs : List Question) (subId : Nat)
    (ans : List AnswerInput) (s1 : Store) (now : Int) (out : SubmitOutcome)
    (s' : Store) (h : runGrading qs subId ans s1 now = (out, s')) :
    ∃ rows pre suf, ans = pre ++ suf ∧ s'.answers = s1.answers ++ rows ∧
      rows.map (fun r => r.questionId) = pre.map (fun a => a.questionId) ∧
      ∀ r ∈ rows, r.submissionId = subId := by
  obtain ⟨rows, pre, suf, hsplit, hans, hmap, hsub⟩ :=
    gradeAnswers_rows_shape qs subId ans 0 s1
  refine ⟨rows, pre, suf, hsplit, ?_, hmap, hsub⟩
  unfold runGrading at h
  split at h
  · rename_i qid s2 heq
    injection h with h1 h2
    rw [← h2, ← hans, congrArg Prod.snd heq]
  · rename_i score s2 heq
    simp only [finalizeSubmission] at h
    injection h with h1 h2
    rw [← h2, updateSubmission_answers, ← hans, congrArg Prod.snd heq]

/-- C6 counterexample: submitting the same question twice in one batch
writes two answer rows for the same (submission, question) pair — with
`demoStore`, the batch `[(q1, A), (q1, A)]` leaves two rows whose
(submissionId, questionId) pairs are both (1, 1). -/
theorem submit_duplicate_rows_cex :
    ((submitExam demoStore (some demoStudent) 1
        (some [⟨1, "A"⟩, ⟨1, "A"⟩]) 5000).2.answers.map
      (fun r => (r.submissionId, r.questionId))) = [(1, 1), (1, 1)] := by
  decide

/-- C6 (amended): within a single grading request whose answer list has
pairwise-distinct question ids, the answer rows written by that request
have pairwise-distinct (submission, question) pairs; and answer rows
stored before the request are never updated or removed — the post-store's
answer list extends the pre-store's as a prefix.  (Uniqueness across
requests does not hold: re-grading a reused in-progress submission, or a
batch with duplicate ids, can duplicate pairs.) -/
theorem submit_batch_rows_distinct (s : Store) (reqUser : Option User)
    (examId : Nat) (ansList : List AnswerInput) (now : Int)
    (out : SubmitOutcome) (s' : Store)
    (h : submitExam s reqUser examId (some ansList) now = (out, s'))
    (hnd : (ansList.map (fun a => a.questionId)).Nodup) :
    s'.answers = s.answers ++ List.drop s.answers.length s'.answers ∧
    ((List.drop s.answers.length s'.answers).map
      (fun r => (r.submissionId, r.questionId))).Nodup := by
  have hid : ∀ (h2 : s = s'), s'.answers = s.answers ++ List.drop s.answers.length s'.answers ∧
      ((List.drop s.answers.length s'.answers).map
        (fun r => (r.submissionId, r.questionId))).Nodup := by
    intro h2
    subst h2
    rw [List.drop_length]
    simp
  cases reqUser with
  | none =>
    simp only [submitExam] at h
    injection h with h1 h2
    exact hid h2
  | some user =>
    simp only [submitExam] at h
    split at h
    · injection h with h1 h2; exact hid h2
    · split at h
      · injection h with h1 h2; exact hid h2
      · split at h
        · injection h with h1 h2; exact hid h2
        · split at h
          · injection h with h1 h2; exact hid h2
          · split at h
            · injection h with h1 h2; exact hid h2
            · injection h with h1 h2; exact hid h2
            · rename_i answers hne heq
              injection heq with heq
              subst heq
              obtain ⟨rows, pre, suf, hsplit, hans, hmap, hsub⟩ :=
                runGrading_answers_shape _ _ _ _ _ _ _ h
              rw [resolveSubmission_answers] at hans
              have hdrop : List.drop s.answers.length s'.answers = rows := by
                rw [hans]
                exact List.drop_left s.answers rows
              rw [hdrop]
              refine ⟨hans, ?_⟩
              have hpreNd : (pre.map (fun a => a.questionId)).Nodup := by
                rw [hsplit, List.map_append] at hnd
                exact hnd.of_append_left
              have hrowsNd : (rows.map (fun r => r.questionId)).Nodup := by
                rw [hmap]; exact hpreNd
              have hinj : Function.Injective
                  (Prod.mk (resolveSubmission s
                    ((getSubmissionsByExam s examId).find?
                      (fun sub => sub.userId == user.id)) examId user.id now).1.id
                    (β := Nat)) :=
                fun a b hab => congrArg Prod.snd hab
              have : rows.map (fun r => (r.submissionId, r.questionId)) =
                  (rows.map (fun r => r.questionId)).map
                    (Prod.mk (resolveSubmission s
                      ((getSubmissionsByExam s examId).find?
                        (fun sub => sub.userId == user.id)) examId user.id now).1.id) := by
                rw [List.map_map]
                exact List.map_congr_left (fun r hr => by
                  simp only [Function.comp]
                  rw [hsub r hr])
              rw [this]
              exact hrowsNd.map hinj

/-- In a list of submissions with pairwise-distinct ids, updating the rows
matching `sub0.id` and then finding one by that id returns exactly the
patched `sub0`. -/
theorem find?_update_nodup (p : SubmissionPatch) (i : Nat) :
    ∀ (l : List Submission), (l.map (fun x => x.id)).Nodup →
    ∀ sub0, sub0 ∈ l → sub0.id = i →
    (l.map (fun x => if x.id == i then applyPatch x p else x)).find?
      (fun x => x.id == i) = some (applyPatch sub0 p) := by
  intro l
  induction l with
  | nil => intro _ sub0 hmem; exact absurd hmem (List.not_mem_nil sub0)
  | cons y ys ih =>
    intro hnd sub0 hmem hid
    rw [List.map_cons] at hnd
    have hy : y.id ∉ ys.map (fun x => x.id) := (List.nodup_cons.mp hnd).1
    have hndt : (ys.map (fun x => x.id)).Nodup := (List.nodup_cons.mp hnd).2
    rw [List.map_cons]
    cases hyi : y.id == i with
    | true =>
      have hyid : y.id = i := by simpa using hyi
      have hy0 : sub0 = y := by
        rcases List.mem_cons.mp hmem with rfl | hin
        · rfl
        · exfalso
          apply hy
          rw [hyid, ← hid]
          exact List.mem_map.mpr ⟨sub0, hin, rfl⟩
      subst hy0
      rw [if_pos rfl]
      have hcond : ((applyPatch sub0 p).id == i) = true := by
        have hidp : (applyPatch sub0 p).id = sub0.id := rfl
        rw [hidp, hid]
        simp
      exact List.find?_cons_of_pos _ hcond
    | false =>
      rw [if_neg (by simp)]
      have hy0 : sub0 ∈ ys := by
        rcases List.mem_cons.mp hmem with rfl | hin
        · rw [hid] at hyi; simp at hyi
        · exact hin
      rw [List.find?_cons_of_neg _ (by simp [hyi])]
      exact ih hndt sub0 hy0 hid

/-- C9: finalizing a reused in-progress submission returns that row with
only `endTime`, `score` and `status` updated — `id`, `examId`, `userId`,
`startTime` and `createdAt` keep the values of the reused row — and the
submissions table after the request is the table before it with only the
rows of that id patched.  The patched score is the spec-side score of the
(non-empty) batch `a0 :: rest0`. -/
theorem submit_finalize_frame (s : Store) (u : User) (examId : Nat)
    (a0 : AnswerInput) (rest0 : List AnswerInput) (now : Int) (exam : Exam)
    (sub0 : Submission) (out : SubmitOutcome) (s' : Store)
    (h : submitExam s (some u) examId (some (a0 :: rest0)) now = (out, s'))
    (hrole : u.role = "student")
    (hex : getExam s examId = some exam)
    (hcls : u.class_ = some exam.class_)
    (hfind : (getSubmissionsByExam s examId).find? (fun x => x.userId == u.id) = some sub0)
    (hip : sub0.status ≠ "completed")
    (hall : ∀ a ∈ a0 :: rest0,
      ((getQuestionsByExam s examId).find? (fun q => q.id == a.questionId)).isSome)
    (hnd : (s.submissions.map (fun x => x.id)).Nodup) :
    out = .ok (some (applyPatch sub0
      (finalizePatch now (scoreSpec (getQuestionsByExam s examId) (a0 :: rest0))))) ∧
    (applyPatch sub0
      (finalizePatch now (scoreSpec (getQuestionsByExam s examId) (a0 :: rest0)))).id = sub0.id ∧
    (applyPatch sub0
      (finalizePatch now (scoreSpec (getQuestionsByExam s examId) (a0 :: rest0)))).examId = sub0.examId ∧
    (applyPatch sub0
      (finalizePatch now (scoreSpec (getQuestionsByExam s examId) (a0 :: rest0)))).userId = sub0.userId ∧
    (applyPatch sub0
      (finalizePatch now (scoreSpec (getQuestionsByExam s examId) (a0 :: rest0)))).startTime = sub0.startTime ∧
    (applyPatch sub0
      (finalizePatch now (scoreSpec (getQuestionsByExam s examId) (a0 :: rest0)))).createdAt = sub0.createdAt ∧
    (applyPatch sub0
      (finalizePatch now (scoreSpec (getQuestionsByExam s examId) (a0 :: rest0)))).status = "completed" ∧
    (applyPatch sub0
      (finalizePatch now (scoreSpec (getQuestionsByExam s examId) (a0 :: rest0)))).endTime = some now ∧
    (applyPatch sub0
      (finalizePatch now (scoreSpec (getQuestionsByExam s examId) (a0 :: rest0)))).score =
        some (scoreSpec (getQuestionsByExam s examId) (a0 :: rest0)) ∧
    s'.submissions = s.submissions.map
      (fun x => if x.id == sub0.id then applyPatch x
        (finalizePatch now (scoreSpec (getQuestionsByExam s examId) (a0 :: rest0))) else x) := by
  simp only [submitExam] at h
  split at h
  · exact absurd hrole (by assumption)
  · split at h
    · rename_i heq
      rw [heq] at hex
      exact absurd hex (by simp)
    · rename_i e heq
      rw [heq] at hex
      injection hex with hex
      subst hex
      split at h
      · exact absurd hcls (by assumption)
      · split at h
        · rename_i hc
          rw [hfind] at hc
          simp only [] at hc
          exact absurd (by simpa using hc) hip
        · rw [hfind] at h
          simp only [resolveSubmission] at h
          obtain ⟨total, s2, hg⟩ :=
            gradeAnswers_all_found (getQuestionsByExam s examId) sub0.id
              (a0 :: rest0) 0 s hall
          unfold runGrading at h
          rw [hg] at h
          simp only [finalizeSubmission] at h
          injection h with h1 h2
          have htotal : total = scoreSpec (getQuestionsByExam s examId) (a0 :: rest0) := by
            have := gradeAnswers_done_score (getQuestionsByExam s examId)
              sub0.id (a0 :: rest0) 0 s total s2 hg
            omega
          subst htotal
          have hg2 : (gradeAnswers (getQuestionsByExam s examId) sub0.id
              (a0 :: rest0) 0 s).2 = s2 := by rw [hg]
          have hs2subs : s2.submissions = s.submissions := by
            rw [← hg2, gradeAnswers_submissions]
          have hmem0 : sub0 ∈ s.submissions :=
            (List.mem_filter.mp (List.mem_of_find?_eq_some hfind)).1
          have hupd1 : (updateSubmission s2 sub0.id
              (finalizePatch now (scoreSpec (getQuestionsByExam s examId) (a0 :: rest0)))).1 =
              some (applyPatch sub0
                (finalizePatch now (scoreSpec (getQuestionsByExam s examId) (a0 :: rest0)))) := by
            simp only [updateSubmission]
            rw [hs2subs]
            exact find?_update_nodup _ sub0.id s.submissions hnd sub0 hmem0 rfl
          have hupd2 : (updateSubmission s2 sub0.id
              (finalizePatch now (scoreSpec (getQuestionsByExam s examId) (a0 :: rest0)))).2.submissions =
              s.submissions.map (fun x => if x.id == sub0.id then applyPatch x
                (finalizePatch now (scoreSpec (getQuestionsByExam s examId) (a0 :: rest0))) else x) := by
            simp only [updateSubmission]
            rw [hs2subs]
          refine ⟨?_, rfl, rfl, rfl, rfl, rfl, rfl, rfl, rfl, ?_⟩
          · rw [← h1, hupd1]
          · rw [← h2, hupd2]

/-! ## Password non-interference (C10) -/

/-- Replace the stored password of the user with id `uid` (all other
fields and tables unchanged): the "two stores differing only in one
user's password" relation. -/
def setPassword (s : Store) (uid : Nat) (p : String) : Store :=
  { s with
    users := s.users.map
      (fun u => if u.id == uid then { u with password := p } else u) }

theorem toPublicUser_setPw (uid : Nat) (p : String) (u : User) :
    toPublicUser (if u.id == uid then { u with password := p } else u) =
    toPublicUser u := by
  split <;> rfl

theorem map_filter_pw (uid : Nat) (p : String) {β : Type} (f : User → β)
    (pred : User → Bool)
    (hf : ∀ u, f (if u.id == uid then { u with password := p } else u) = f u)
    (hpred : ∀ u,
      pred (if u.id == uid then { u with password := p } else u) = pred u) :
    ∀ l : List User,
    ((l.map (fun u => if u.id == uid then { u with password := p } else u)).filter
      pred).map f = (l.filter pred).map f := by
  intro l
  induction l with
  | nil => rfl
  | cons a l ih =>
    rw [List.map_cons, List.filter_cons, List.filter_cons, hpred a]
    cases hpa : pred a with
    | true =>
      rw [if_pos rfl, if_pos rfl, List.map_cons, List.map_cons, hf a, ih]
    | false =>
      rw [if_neg (by simp), if_neg (by simp)]
      exact ih

theorem find?_map_pw (uid : Nat) (p : String) (id : Nat) :
    ∀ l : List User,
    (l.map (fun u => if u.id == uid then { u with password := p } else u)).find?
      (fun u => u.id == id) =
    (l.find? (fun u => u.id == id)).map
      (fun u => if u.id == uid then { u with password := p } else u) := by
  intro l
  induction l with
  | nil => rfl
  | cons a l ih =>
    rw [List.map_cons]
    have hpw : ((if a.id == uid then { a with password := p } else a).id == id) =
        (a.id == id) := by split <;> rfl
    cases hpa : a.id == id with
    | true =>
      simp only [List.find?, hpw, hpa]
      rfl
    | false =>
      simp only [List.find?, hpw, hpa]
      exact ih

theorem getStudentsByClass_setPw (s : Store) (uid : Nat) (p : String)
    (cls : String) :
    (getStudentsByClass (setPassword s uid p) cls).map toPublicUser =
    (getStudentsByClass s cls).map toPublicUser := by
  simp only [getStudentsByClass, setPassword]
  exact map_filter_pw uid p toPublicUser
    (fun u => u.role == "student" && u.class_ == some cls)
    (toPublicUser_setPw uid p) (fun u => by split <;> rfl) s.users

theorem getAllClasses_setPw (s : Store) (uid : Nat) (p : String) :
    getAllClasses (setPassword s uid p) = getAllClasses s := by
  simp only [getAllClasses, setPassword]
  rw [map_filter_pw uid p (fun u => u.class_.getD "")
    (fun u => u.role == "student" && u.class_.isSome)
    (fun u => by split <;> rfl) (fun u => by split <;> rfl) s.users]

theorem getUser_setPw (s : Store) (uid : Nat) (p : String) (id : Nat) :
    getUser (setPassword s uid p) id = (getUser s id).map
      (fun u => if u.id == uid then { u with password := p } else u) := by
  simp only [getUser, setPassword]
  exact find?_map_pw uid p id s.users

/-- Changing a stored password does not change the entry the
per-exam submissions listing builds for any one submission. -/
theorem submissionEntry_setPw (s : Store) (uid : Nat) (p : String)
    (sub : Submission) :
    (match getUser (setPassword s uid p) sub.userId with
     | some student =>
       if student.role == "student" then some (sub, toPublicUser student) else none
     | none => none) =
    (match getUser s sub.userId with
     | some student =>
       if student.role == "student" then some (sub, toPublicUser student) else none
     | none => none) := by
  rw [getUser_setPw]
  cases getUser s sub.userId with
  | none => rfl
  | some student =>
    show (if (if student.id == uid then { student with password := p }
        else student).role == "student" then
        some (sub, toPublicUser (if student.id == uid then
          { student with password := p } else student)) else none) =
      (if student.role == "student" then some (sub, toPublicUser student) else none)
    split <;> split <;> rfl

/-- C10: the password field is absent from both listing endpoints'
responses by construction (`PublicUser` has no password field), and the
responses do not depend on any stored password: changing one user's
password leaves the response of `GET /api/users/students` (with or
without a class filter) and of `GET /api/exams/:examId/submissions`
identical. -/
theorem password_noninterference (s : Store) (uid : Nat) (p : String)
    (reqUser : Option User) (className : Option String) (examId : Nat) :
    getStudentsRoute (setPassword s uid p) reqUser className =
      getStudentsRoute s reqUser className ∧
    getExamSubmissionsRoute (setPassword s uid p) reqUser examId =
      getExamSubmissionsRoute s reqUser examId := by
  constructor
  · unfold getStudentsRoute
    cases reqUser with
    | none => rfl
    | some user =>
      simp only [getStudentsByClass_setPw, getAllClasses_setPw]
  · unfold getExamSubmissionsRoute
    cases reqUser with
    | none => rfl
    | some user =>
      have hexam : getExam (setPassword s uid p) examId = getExam s examId := rfl
      have hsubs : getSubmissionsByExam (setPassword s uid p) examId =
        getSubmissionsByExam s examId := rfl
      simp only [hexam, hsubs, submissionEntry_setPw]

/-! ## Witnesses: the theorems with hypotheses applied at concrete inputs -/

theorem submit_score_is_sum_witness :
    demoFinSub.score = some (scoreSpec (getQuestionsByExam demoStore 1) demoAnswers) ∧
    demoFinSub.status = "completed" ∧
    demoFinSub ∈ (submitExam demoStore (some demoStudent) 1
      (some demoAnswers) 5000).2.submissions :=
  submit_score_is_sum demoStore (some demoStudent) 1 demoAnswers 5000 demoFinSub
    (submitExam demoStore (some demoStudent) 1 (some demoAnswers) 5000).2 rfl

theorem submit_answers_graded_witness :
    demoRow ∈ demoStore.answers ∨
    answerGradedCorrectly (getQuestionsByExam demoStore 1) demoRow :=
  submit_answers_graded demoStore (some demoStudent) 1 (some demoAnswers) 5000
    (submitExam demoStore (some demoStudent) 1 (some demoAnswers) 5000).1
    (submitExam demoStore (some demoStudent) 1 (some demoAnswers) 5000).2 rfl
    demoRow (by decide)

theorem submit_resubmission_rejected_witness :
    (submitExam demoStoreDone (some demoStudent) 1 (some [⟨1, "A"⟩]) 5000).1 =
      SubmitOutcome.err 400 "Exam already submitted" ∧
    (submitExam demoStoreDone (some demoStudent) 1 (some [⟨1, "A"⟩]) 5000).2 =
      demoStoreDone :=
  submit_resubmission_rejected demoStoreDone demoStudent 1 (some [⟨1, "A"⟩])
    5000 demoExam demoDoneSub
    (submitExam demoStoreDone (some demoStudent) 1 (some [⟨1, "A"⟩]) 5000).1
    (submitExam demoStoreDone (some demoStudent) 1 (some [⟨1, "A"⟩]) 5000).2
    rfl rfl rfl rfl rfl rfl

theorem submit_empty_rejected_no_writes_witness :
    isClientError (submitExam demoStore (some demoStudent) 1
      (some []) 5000).1 = true ∧
    (submitExam demoStore (some demoStudent) 1 (some []) 5000).2 = demoStore :=
  submit_empty_rejected_no_writes demoStore (some demoStudent) 1 (some [])
    5000 (submitExam demoStore (some demoStudent) 1 (some []) 5000).1
    (submitExam demoStore (some demoStudent) 1 (some []) 5000).2 rfl
    (Or.inr rfl)

theorem submit_unknown_question_partial_witness :
    (submitExam demoStore (some demoStudent) 1
        (some ([⟨1, "A"⟩] ++ demoBad :: [])) 5000).1 =
      SubmitOutcome.err 400
        ("Question with ID " ++ toString demoBad.questionId ++ " not found") := by
  have h := submit_unknown_question_partial demoStore demoStudent 1
    [⟨1, "A"⟩] demoBad [] 5000 demoExam
    (submitExam demoStore (some demoStudent) 1
      (some ([⟨1, "A"⟩] ++ demoBad :: [])) 5000).1
    (submitExam demoStore (some demoStudent) 1
      (some ([⟨1, "A"⟩] ++ demoBad :: [])) 5000).2
    rfl rfl rfl rfl
    (by intro sub hsub
        rw [show (getSubmissionsByExam demoStore 1).find?
          (fun x => x.userId == demoStudent.id) = none from rfl] at hsub
        exact Option.noConfusion hsub)
    (by decide) (by decide)
  exact h.1

theorem submit_batch_rows_distinct_witness :
    (submitExam demoStore (some demoStudent) 1
        (some [⟨1, "A"⟩, ⟨2, "B"⟩]) 5000).2.answers =
      demoStore.answers ++ List.drop demoStore.answers.length
        (submitExam demoStore (some demoStudent) 1
          (some [⟨1, "A"⟩, ⟨2, "B"⟩]) 5000).2.answers ∧
    ((List.drop demoStore.answers.length
        (submitExam demoStore (some demoStudent) 1
          (some [⟨1, "A"⟩, ⟨2, "B"⟩]) 5000).2.answers).map
      (fun r => (r.submissionId, r.questionId))).Nodup :=
  submit_batch_rows_distinct demoStore (some demoStudent) 1
    [⟨1, "A"⟩, ⟨2, "B"⟩] 5000
    (submitExam demoStore (some demoStudent) 1
      (some [⟨1, "A"⟩, ⟨2, "B"⟩]) 5000).1
    (submitExam demoStore (some demoStudent) 1
      (some [⟨1, "A"⟩, ⟨2, "B"⟩]) 5000).2 rfl (by decide)

theorem countdown_expired_fires_on_first_tick_witness :
    (initTimer 0 86400000).timeRemaining = 0 ∧
    (ticks 1 (initTimer 0 86400000)).timeUpSignals = 1 ∧
    (ticks 50 (initTimer 0 86400000)).timeUpSignals ≤ 1 := by
  have h := countdown_expired_fires_on_first_tick 0 86400000 (by decide)
  exact ⟨h.1, h.2.2.1, h.2.2.2 50⟩

theorem submit_finalize_frame_witness :
    (submitExam demoStoreInProgress (some demoStudent) 1
        (some (⟨1, "A"⟩ :: [⟨2, "B"⟩, ⟨3, "C"⟩])) 5000).1 =
      SubmitOutcome.ok (some (applyPatch demoIpSub (finalizePatch 5000
        (scoreSpec (getQuestionsByExam demoStoreInProgress 1)
          (⟨1, "A"⟩ :: [⟨2, "B"⟩, ⟨3, "C"⟩]))))) ∧
    (applyPatch demoIpSub (finalizePatch 5000
        (scoreSpec (getQuestionsByExam demoStoreInProgress 1)
          (⟨1, "A"⟩ :: [⟨2, "B"⟩, ⟨3, "C"⟩])))).startTime = demoIpSub.startTime := by
  have h := submit_finalize_frame demoStoreInProgress demoStudent 1
    ⟨1, "A"⟩ [⟨2, "B"⟩, ⟨3, "C"⟩] 5000 demoExam demoIpSub
    (submitExam demoStoreInProgress (some demoStudent) 1
      (some (⟨1, "A"⟩ :: [⟨2, "B"⟩, ⟨3, "C"⟩])) 5000).1
    (submitExam demoStoreInProgress (some demoStudent) 1
      (some (⟨1, "A"⟩ :: [⟨2, "B"⟩, ⟨3, "C"⟩])) 5000).2
    rfl rfl rfl rfl rfl (by decide) (by decide) (by decide)
  exact ⟨h.1, h.2.2.2.2.1⟩

end NodeQuizPro
